import Mathlib

set_option maxRecDepth 8192

namespace AdvAuto

/- ## Python string primitives

The repository manipulates Python `str` values.  We model them as Lean
`String`s and implement the Python operations the code uses on
`String.data` (`List Char`), which matches Python's code-point semantics
for slicing, stripping and replacement. -/

/-- The whitespace characters removed by Python `str.strip()` (ASCII range;
the code never feeds it exotic Unicode whitespace). -/
def wsChar (c : Char) : Bool :=
  c = ' ' || c = '\t' || c = '\n' || c = '\r' || c = '\x0b' || c = '\x0c'

/-- Python `str.strip()` on a character list: drop whitespace from both ends. -/
def stripList (l : List Char) : List Char :=
  ((l.dropWhile wsChar).reverse.dropWhile wsChar).reverse

/-- Python `s.strip()`. -/
def pyStrip (s : String) : String := ⟨stripList s.data⟩

/-- Python `s[:n]`. -/
def pyTake (n : Nat) (s : String) : String := ⟨s.data.take n⟩

/-- Fuel-driven worker for Python `str.replace`: replaces non-overlapping
occurrences of `pat` left to right.  The fuel (initially the length of the
list) makes the recursion structural, so that concrete runs reduce in the
kernel; it never runs out when started at `l.length`. -/
def replaceAllGo (pat rep : List Char) : Nat → List Char → List Char
  | _, [] => []
  | 0, l => l
  | fuel + 1, c :: rest =>
    if pat.isPrefixOf (c :: rest) then
      rep ++ replaceAllGo pat rep fuel ((c :: rest).drop pat.length)
    else
      c :: replaceAllGo pat rep fuel rest

/-- Python `s.replace(pat, rep)` for a non-empty pattern (the only case the
code uses; an empty pattern is returned unchanged). -/
def replaceAll (pat rep l : List Char) : List Char :=
  if pat.isEmpty then l else replaceAllGo pat rep l.length l

/-- Python `s.replace(pat, rep)`. -/
def pyReplace (s pat rep : String) : String := ⟨replaceAll pat.data rep.data s.data⟩

/-- Python truthiness of an optional string (`if x:`): `None` and `""` are
falsy, any other string is truthy. -/
def pyTruthy (o : Option String) : Bool :=
  match o with
  | none => false
  | some s => !(s = "")

/- ## Content Generator — `generate_posts` (src/tools.py)

The remote chat-completion call is an oracle: it either raises (transport
or service failure) or yields a content string together with the result of
`json.loads` on it (`none` models a `JSONDecodeError`).  A JSON object is
abstracted to the only shape the code inspects: an optional `"posts"` key
holding a list of post objects. -/

structure Post where
  title : String
  caption : String
  hashtags : String
deriving DecidableEq, Repr

structure PostsJson where
  posts? : Option (List Post)
deriving DecidableEq, Repr

inductive ChatOutcome where
  | failure
  | raw (content : String) (parsed : Option PostsJson)

inductive GenPostsError where
  | emptyTopic      -- ValueError("Topic cannot be empty")
  | upstream        -- exception from the API call, re-raised
  | emptyContent    -- ValueError("Empty response from OpenAI")
  | notJson         -- json.JSONDecodeError, re-raised
  | badStructure    -- ValueError("Invalid response structure from OpenAI")
deriving DecidableEq, Repr

/-- `generate_posts` (src/tools.py lines 32-87).  The topic is checked for
blankness before any remote call; the response must be valid JSON carrying a
`"posts"` list of length exactly 3, otherwise a typed error is raised.  Note
the code never inspects the `hashtags` field of the returned posts. -/
def generate_posts (topic : String) (resp : ChatOutcome) : Except GenPostsError (List Post) :=
  if (pyStrip topic).isEmpty then .error .emptyTopic
  else
    match resp with
    | .failure => .error .upstream
    | .raw content parsed =>
      if (pyStrip content).isEmpty then .error .emptyContent
      else
        match parsed with
        | none => .error .notJson
        | some obj =>
          match obj.posts? with
          | none => .error .badStructure
          | some ps => if ps.length = 3 then .ok ps else .error .badStructure

/-- Spec-side measure, modelled from the spec's words "each with exactly 5
hashtags": the number of `#` marks in a post's hashtags string (the code
stores hashtags as one string). -/
def hashtagCount (s : String) : Nat := s.data.countP (fun c => c = '#')

/-- C1 (counterexample): the claim says a successful `generate_posts` result
has "exactly 5 hashtags" per draft.  The code only validates the number of
posts, not the hashtags: an upstream response carrying three posts whose
first draft has a single hashtag is returned as a success. -/
theorem c1_counterexample :
    generate_posts "laptops"
        (.raw "j" (some ⟨some [⟨"t1", "c1", "#one"⟩, ⟨"t2", "c2", "#a #b #c #d #e"⟩,
          ⟨"t3", "c3", ""⟩]⟩))
      = .ok [⟨"t1", "c1", "#one"⟩, ⟨"t2", "c2", "#a #b #c #d #e"⟩, ⟨"t3", "c3", ""⟩]
    ∧ hashtagCount "#one" ≠ 5 := by
  constructor
  · rfl
  · decide

/-- C1 (amended): for a non-blank topic `generate_posts` either returns
exactly the 3 drafts carried by the upstream JSON — never a partial or
reshaped structure — or fails with a typed error: `emptyTopic` on a
blank/whitespace topic, `upstream` on service failure, `notJson` on invalid
JSON, `badStructure` when the `"posts"` key is missing or does not hold
exactly 3 entries.  The per-draft hashtag count is not validated. -/
theorem c1_generate_posts_shape (topic : String) (resp : ChatOutcome) :
    (∀ ps, generate_posts topic resp = .ok ps →
      ps.length = 3 ∧ ∃ content, resp = .raw content (some ⟨some ps⟩))
    ∧ ((pyStrip topic).isEmpty = true →
        generate_posts topic resp = .error .emptyTopic)
    ∧ ((pyStrip topic).isEmpty = false → resp = .failure →
        generate_posts topic resp = .error .upstream)
    ∧ (∀ content, (pyStrip topic).isEmpty = false → (pyStrip content).isEmpty = false →
        resp = .raw content none →
        generate_posts topic resp = .error .notJson)
    ∧ (∀ content obj, (pyStrip topic).isEmpty = false → (pyStrip content).isEmpty = false →
        resp = .raw content (some obj) → obj.posts? = none →
        generate_posts topic resp = .error .badStructure)
    ∧ (∀ content obj ps, (pyStrip topic).isEmpty = false → (pyStrip content).isEmpty = false →
        resp = .raw content (some obj) → obj.posts? = some ps → ps.length ≠ 3 →
        generate_posts topic resp = .error .badStructure) := by
  refine ⟨?_, ?_, ?_, ?_, ?_, ?_⟩
  · intro ps h
    unfold generate_posts at h
    split at h
    · simp at h
    · cases resp with
      | failure => simp at h
      | raw content parsed =>
        simp only at h
        split at h
        · simp at h
        · cases parsed with
          | none => simp at h
          | some obj =>
            cases obj with
            | mk posts? =>
              cases posts? with
              | none => simp at h
              | some ps' =>
                simp only at h
                split at h
                · rename_i hlen
                  cases h
                  exact ⟨hlen, content, rfl⟩
                · simp at h
  · intro h
    unfold generate_posts
    simp [h]
  · intro h hr
    unfold generate_posts
    simp [h, hr]
  · intro content h hc hr
    subst hr
    unfold generate_posts
    simp [h, hc]
  · intro content obj h hc hr hp
    subst hr
    unfold generate_posts
    simp [h, hc, hp]
  · intro content obj ps h hc hr hp hlen
    subst hr
    unfold generate_posts
    simp [h, hc, hp, hlen]

/-- C1 witness: the amended theorem applied at concrete inputs, discharging
each hypothesis. -/
theorem c1_generate_posts_shape_witness :
    ([(⟨"a", "b", "#x"⟩ : Post), ⟨"c", "d", "#y"⟩, ⟨"e", "f", "#z"⟩].length = 3)
    ∧ generate_posts "   " .failure = .error .emptyTopic
    ∧ generate_posts "ai" .failure = .error .upstream
    ∧ generate_posts "ai" (.raw "x" none) = .error .notJson
    ∧ generate_posts "ai" (.raw "x" (some ⟨none⟩)) = .error .badStructure
    ∧ generate_posts "ai" (.raw "x" (some ⟨some [⟨"t", "c", "#h"⟩]⟩)) = .error .badStructure := by
  refine ⟨?_, ?_, ?_, ?_, ?_, ?_⟩
  · exact ((c1_generate_posts_shape "ai"
      (.raw "j" (some ⟨some [⟨"a", "b", "#x"⟩, ⟨"c", "d", "#y"⟩, ⟨"e", "f", "#z"⟩]⟩))).1
      [⟨"a", "b", "#x"⟩, ⟨"c", "d", "#y"⟩, ⟨"e", "f", "#z"⟩] (by rfl)).1
  · exact (c1_generate_posts_shape "   " .failure).2.1 (by decide)
  · exact (c1_generate_posts_shape "ai" .failure).2.2.1 (by decide) rfl
  · exact (c1_generate_posts_shape "ai" (.raw "x" none)).2.2.2.1 "x" (by decide) (by decide) rfl
  · exact (c1_generate_posts_shape "ai" (.raw "x" (some ⟨none⟩))).2.2.2.2.1 "x" ⟨none⟩
      (by decide) (by decide) rfl rfl
  · exact (c1_generate_posts_shape "ai" (.raw "x" (some ⟨some [⟨"t", "c", "#h"⟩]⟩))).2.2.2.2.2
      "x" ⟨some [⟨"t", "c", "#h"⟩]⟩ [⟨"t", "c", "#h"⟩]
      (by decide) (by decide) rfl rfl (by decide)

/- ## Credential Store — UserDatabase (src/auth.py)

Timestamps (`datetime.now().isoformat()`) are modelled as abstract instants
(`Nat`), the SHA-256 hash as an arbitrary function parameter `hashFn`, and
the flat JSON file through a load outcome and a save-success flag. -/

/-- Python `re.match` against a `^...$` pattern: the `$` anchor also matches
just before a single newline at the end of the string. -/
def pyDollarMatch (core : List Char → Bool) (l : List Char) : Bool :=
  core l ||
    (match l.getLast? with
     | some c => c = '\n' && core l.dropLast
     | none => false)

def usernameChar (c : Char) : Bool := c.isAlphanum || c = '_'

/-- The username check in `create_user`: `^[a-zA-Z0-9_]+$`. -/
def validUsername (s : String) : Bool :=
  pyDollarMatch (fun l => !l.isEmpty && l.all usernameChar) s.data

def emailLocalChar (c : Char) : Bool :=
  c.isAlphanum || c = '.' || c = '_' || c = '%' || c = '+' || c = '-'

def emailDomChar (c : Char) : Bool := c.isAlphanum || c = '.' || c = '-'

/-- The domain part `[a-zA-Z0-9.-]+\.[a-zA-Z]{2,}` of the email pattern,
anchored at the end: since the TLD class excludes dots, the regex can only
split at the last dot of the domain. -/
def emailDomain (d : List Char) : Bool :=
  let tld := (d.reverse.takeWhile (fun c => !(c = '.'))).reverse
  match d.reverse.dropWhile (fun c => !(c = '.')) with
  | [] => false
  | _ :: restRev =>
    let head := restRev.reverse
    !head.isEmpty && head.all emailDomChar && decide (2 ≤ tld.length) && tld.all Char.isAlpha

/-- The email pattern's body: exactly one `@` (neither character class admits
one) separating a non-empty local part from the domain. -/
def emailCore (l : List Char) : Bool :=
  match l.splitOn '@' with
  | [loc, dom] => !loc.isEmpty && loc.all emailLocalChar && emailDomain dom
  | _ => false

/-- `UserDatabase._validate_email` (src/auth.py lines 123-126):
`re.match` against `^[a-zA-Z0-9._%+-]+@[a-zA-Z0-9.-]+\.[a-zA-Z]{2,}$`. -/
def validEmail (s : String) : Bool := pyDollarMatch emailCore s.data

structure Account where
  password : String        -- SHA-256 hex digest, `hash_password(plaintext)`
  email : String
  role : String
  created_at : Nat
  last_login : Option Nat
  active : Bool
deriving DecidableEq, Repr

/-- The users dict: username ↦ account record, in insertion order. -/
abbrev Users := List (String × Account)

/-- Dict lookup (`self.users[u]` / `u in self.users`). -/
def getUser (db : Users) (u : String) : Option Account :=
  match db with
  | [] => none
  | (k, a) :: rest => if k = u then some a else getUser rest u

/-- In-place mutation of one account record (Python's `self.users[username]`
is a shared mutable reference). -/
def setUser (db : Users) (u : String) (a : Account) : Users :=
  db.map (fun p => if p.1 = u then (u, a) else p)

/-- Result of one store operation: `ret` is the returned value, or `.error ()`
when an exception (a failing `_save_users`) escapes to the caller; `users` is
the in-memory dict after the call; `written` is the store content flushed to
disk by `_save_users`, if any write completed. -/
structure OpResult (α : Type) where
  ret : Except Unit α
  users : Users
  written : Option Users
deriving Repr

/-- Outcome of reading the backing file in `_load_users`. -/
inductive LoadResult where
  | absent                 -- os.path.exists is false
  | found (users : Users)  -- the file opens and parses
  | ioError                -- open or json.load raises
deriving Repr

/-- `UserDatabase._load_users` (src/auth.py lines 19-27).  The bare
`except: return {}` turns any read/parse failure into an empty store. -/
def load_users : LoadResult → Users
  | .absent => []
  | .found us => us
  | .ioError => []

/-- `UserDatabase.create_user` (src/auth.py lines 38-60). -/
def create_user (db : Users) (hashFn : String → String) (now : Nat) (saveOk : Bool)
    (username password email role : String) : OpResult (Bool × String) :=
  if (getUser db username).isSome then
    ⟨.ok (false, "Username already exists"), db, none⟩
  else if !validEmail email then
    ⟨.ok (false, "Invalid email format"), db, none⟩
  else if !validUsername username then
    ⟨.ok (false, "Username can only contain letters, numbers, and underscores"), db, none⟩
  else
    let db' := db ++ [(username, ⟨hashFn password, email, role, now, none, true⟩)]
    if saveOk then ⟨.ok (true, "User created successfully"), db', some db'⟩
    else ⟨.error (), db', none⟩

/-- `UserDatabase.update_user` (src/auth.py lines 62-86).  Field updates are
applied to the shared account record one at a time, so an early validation
return leaves the earlier mutations in memory but unpersisted. -/
def update_user (db : Users) (hashFn : String → String) (saveOk : Bool) (username : String)
    (email : Option String) (role : Option String) (active : Option Bool)
    (new_password : Option String) : OpResult (Bool × String) :=
  match getUser db username with
  | none => ⟨.ok (false, "User not found"), db, none⟩
  | some user =>
    let emailOk : Bool := match email with | some e => validEmail e | none => true
    if !emailOk then ⟨.ok (false, "Invalid email format"), db, none⟩
    else
      let user1 := match email with | some e => { user with email := e } | none => user
      let user2 := match role with | some r => { user1 with role := r } | none => user1
      let user3 := match active with | some a => { user2 with active := a } | none => user2
      match new_password with
      | some pw =>
        if pw.length < 6 then
          ⟨.ok (false, "Password must be at least 6 characters"), setUser db username user3, none⟩
        else
          let user4 := { user3 with password := hashFn pw }
          let db4 := setUser db username user4
          if saveOk then ⟨.ok (true, "User updated successfully"), db4, some db4⟩
          else ⟨.error (), db4, none⟩
      | none =>
        let db3 := setUser db username user3
        if saveOk then ⟨.ok (true, "User updated successfully"), db3, some db3⟩
        else ⟨.error (), db3, none⟩

/-- `UserDatabase.delete_user` (src/auth.py lines 88-94). -/
def delete_user (db : Users) (saveOk : Bool) (username : String) : OpResult (Bool × String) :=
  if (getUser db username).isSome then
    let db' := db.filter (fun p => !(p.1 = username))
    if saveOk then ⟨.ok (true, "User \x27" ++ username ++ "\x27 deleted"), db', some db'⟩
    else ⟨.error (), db', none⟩
  else ⟨.ok (false, "User not found"), db, none⟩

/-- `UserDatabase.authenticate` (src/auth.py lines 96-113). -/
def authenticate (db : Users) (hashFn : String → String) (now : Nat) (saveOk : Bool)
    (username password : String) : OpResult (Bool × String × Option String) :=
  match getUser db username with
  | none => ⟨.ok (false, "User not found", none), db, none⟩
  | some user =>
    if !user.active then ⟨.ok (false, "Account is deactivated", none), db, none⟩
    else if user.password = hashFn password then
      let user' := { user with last_login := some now }
      let db' := setUser db username user'
      if saveOk then ⟨.ok (true, "Login successful", some user.role), db', some db'⟩
      else ⟨.error (), db', none⟩
    else ⟨.ok (false, "Invalid password", none), db, none⟩

/-- The body of `create_default_users` acting on the loaded store: create
`admin`/`admin123` and `user`/`user123` only when those usernames are absent.
A save failure inside `create_user` propagates. -/
def create_default_users_on (users0 : Users) (hashFn : String → String)
    (now1 now2 : Nat) (saveOk : Bool) : Except Unit Users :=
  let step1 : Except Unit Users :=
    if (getUser users0 "admin").isSome then .ok users0
    else
      let r := create_user users0 hashFn now1 saveOk "admin" "admin123" "admin@example.com" "admin"
      match r.ret with
      | .error _ => .error ()
      | .ok _ => .ok r.users
  match step1 with
  | .error _ => .error ()
  | .ok users1 =>
    if (getUser users1 "user").isSome then .ok users1
    else
      let r := create_user users1 hashFn now2 saveOk "user" "user123" "user@example.com" "user"
      match r.ret with
      | .error _ => .error ()
      | .ok _ => .ok r.users

/-- `create_default_users` (src/auth.py lines 132-146): `UserDatabase()`
loads the backing file, then the two default accounts are created when
missing (this is also what `init_session_state`, lines 586-595, runs on the
first session). -/
def create_default_users (loadRes : LoadResult) (hashFn : String → String)
    (now1 now2 : Nat) (saveOk : Bool) : Except Unit Users :=
  create_default_users_on (load_users loadRes) hashFn now1 now2 saveOk

/- ### Dictionary lemmas -/

theorem getUser_append_left {db l : Users} {u : String} {a : Account}
    (h : getUser db u = some a) : getUser (db ++ l) u = some a := by
  induction db with
  | nil => simp [getUser] at h
  | cons p rest ih =>
    cases p with
    | mk k b =>
      by_cases hk : k = u
      · subst hk; simp [getUser] at h ⊢; exact h
      · simp [getUser, hk] at h ⊢; exact ih h

theorem getUser_append_right {db l : Users} {u : String}
    (h : getUser db u = none) : getUser (db ++ l) u = getUser l u := by
  induction db with
  | nil => simp [getUser]
  | cons p rest ih =>
    cases p with
    | mk k b =>
      by_cases hk : k = u
      · subst hk; simp [getUser] at h
      · simp [getUser, hk] at h ⊢; exact ih h

theorem setUser_cons (k : String) (b : Account) (rest : Users) (u : String) (a : Account) :
    setUser ((k, b) :: rest) u a = (if k = u then (u, a) else (k, b)) :: setUser rest u a := rfl

theorem getUser_setUser_self {db : Users} {u : String} {a a' : Account}
    (h : getUser db u = some a) : getUser (setUser db u a') u = some a' := by
  induction db with
  | nil => simp [getUser] at h
  | cons p rest ih =>
    cases p with
    | mk k b =>
      rw [setUser_cons]
      by_cases hk : k = u
      · subst hk; rw [if_pos rfl]; simp [getUser]
      · rw [if_neg hk]
        simp [getUser, hk] at h ⊢
        exact ih h

/- ### Claims on the credential store -/

/-- C4 (counterexample): a persistence failure on store load does not
propagate to the caller: `_load_users` silently returns the empty store,
indistinguishable from an absent file, instead of raising. -/
theorem c4_counterexample :
    load_users .ioError = ([] : Users) ∧ load_users .absent = ([] : Users) :=
  ⟨rfl, rfl⟩

/-- C4 (amended): create, update, delete and successful authenticate persist
the exact in-memory store before returning success, and a failing save
propagates to the caller as an exception; a failing load, however, is
silently swallowed into an empty store (see the counterexample). -/
theorem c4_persistence (db : Users) (hashFn : String → String) (now : Nat) (saveOk : Bool)
    (username password email role : String) (roleOpt : Option String)
    (activeOpt : Option Bool) :
    (∀ m us w, create_user db hashFn now saveOk username password email role
        = ⟨.ok (true, m), us, w⟩ → w = some us ∧ saveOk = true)
    ∧ (∀ emailOpt pwOpt m us w,
        update_user db hashFn saveOk username emailOpt roleOpt activeOpt pwOpt
          = ⟨.ok (true, m), us, w⟩ → w = some us ∧ saveOk = true)
    ∧ (∀ m us w, delete_user db saveOk username = ⟨.ok (true, m), us, w⟩ →
        w = some us ∧ saveOk = true)
    ∧ (∀ m r us w, authenticate db hashFn now saveOk username password
        = ⟨.ok (true, m, r), us, w⟩ → w = some us ∧ saveOk = true)
    ∧ (saveOk = false → (getUser db username).isSome = false → validEmail email = true →
        validUsername username = true →
        (create_user db hashFn now saveOk username password email role).ret = .error ())
    ∧ (saveOk = false → (getUser db username).isSome = true →
        (delete_user db saveOk username).ret = .error ())
    ∧ (saveOk = false → ∀ user, getUser db username = some user → user.active = true →
        user.password = hashFn password →
        (authenticate db hashFn now saveOk username password).ret = .error ())
    ∧ (saveOk = false → (getUser db username).isSome = true →
        (update_user db hashFn saveOk username none roleOpt activeOpt none).ret = .error ()) := by
  refine ⟨?_, ?_, ?_, ?_, ?_, ?_, ?_, ?_⟩
  · intro m us w h
    unfold create_user at h
    split at h
    · simp at h
    · split at h
      · simp at h
      · split at h
        · simp at h
        · split at h
          · rename_i hs
            cases h
            exact ⟨rfl, hs⟩
          · simp at h
  · intro emailOpt pwOpt m us w h
    cases hg : getUser db username with
    | none => simp [update_user, hg] at h
    | some user =>
      cases emailOpt with
      | none =>
        cases pwOpt with
        | none =>
          cases saveOk with
          | false => simp [update_user, hg] at h
          | true =>
            simp [update_user, hg] at h
            obtain ⟨-, h2, h3⟩ := h
            subst h2; subst h3
            exact ⟨rfl, rfl⟩
        | some pw =>
          by_cases hl : pw.length < 6
          · simp [update_user, hg, hl] at h
          · cases saveOk with
            | false => simp [update_user, hg, hl] at h
            | true =>
              simp [update_user, hg, hl] at h
              obtain ⟨-, h2, h3⟩ := h
              subst h2; subst h3
              exact ⟨rfl, rfl⟩
      | some e =>
        by_cases he : validEmail e = true
        · cases pwOpt with
          | none =>
            cases saveOk with
            | false => simp [update_user, hg, he] at h
            | true =>
              simp [update_user, hg, he] at h
              obtain ⟨-, h2, h3⟩ := h
              subst h2; subst h3
              exact ⟨rfl, rfl⟩
          | some pw =>
            by_cases hl : pw.length < 6
            · simp [update_user, hg, he, hl] at h
            · cases saveOk with
              | false => simp [update_user, hg, he, hl] at h
              | true =>
                simp [update_user, hg, he, hl] at h
                obtain ⟨-, h2, h3⟩ := h
                subst h2; subst h3
                exact ⟨rfl, rfl⟩
        · simp [update_user, hg, he] at h
  · intro m us w h
    unfold delete_user at h
    split at h
    · split at h
      · rename_i hs
        cases h
        exact ⟨rfl, hs⟩
      · simp at h
    · simp at h
  · intro m r us w h
    unfold authenticate at h
    split at h
    · simp at h
    · split at h
      · simp at h
      · split at h
        · split at h
          · rename_i hs
            cases h
            exact ⟨rfl, hs⟩
          · simp at h
        · simp at h
  · intro hs h1 h2 h3
    subst hs
    simp [create_user, h1, h2, h3]
  · intro hs h1
    subst hs
    simp [delete_user, h1]
  · intro hs user hu hactive hpw
    subst hs
    simp [authenticate, hu, hactive, hpw]
  · intro hs h1
    subst hs
    obtain ⟨user, hu⟩ := Option.isSome_iff_exists.mp h1
    simp [update_user, hu]

/-- C4 witness: the amended theorem applied at concrete inputs, discharging
each hypothesis. -/
theorem c4_persistence_witness :
    ((some [("bob", (⟨"pw", "b@x.com", "user", 0, none, true⟩ : Account))] : Option Users)
        = some [("bob", ⟨"pw", "b@x.com", "user", 0, none, true⟩)] ∧ True = True)
    ∧ (create_user [] (fun s => s) 0 false "bob" "pw" "b@x.com" "user").ret = .error ()
    ∧ (delete_user [("bob", ⟨"pw", "b@x.com", "user", 0, none, true⟩)] false "bob").ret = .error ()
    ∧ (authenticate [("bob", ⟨"pw", "b@x.com", "user", 0, none, true⟩)] (fun s => s) 1 false
        "bob" "pw").ret = .error ()
    ∧ (update_user [("bob", ⟨"pw", "b@x.com", "user", 0, none, true⟩)] (fun s => s) false
        "bob" none none none none).ret = .error () := by
  refine ⟨?_, ?_, ?_, ?_, ?_⟩
  · exact ⟨((c4_persistence [] (fun s => s) 0 true "bob" "pw" "b@x.com" "user" none none).1
      "User created successfully"
      [("bob", ⟨"pw", "b@x.com", "user", 0, none, true⟩)]
      (some [("bob", ⟨"pw", "b@x.com", "user", 0, none, true⟩)]) (by rfl)).1, rfl⟩
  · exact (c4_persistence [] (fun s => s) 0 false "bob" "pw" "b@x.com" "user" none
      none).2.2.2.2.1 rfl (by rfl) (by rfl) (by rfl)
  · exact (c4_persistence [("bob", ⟨"pw", "b@x.com", "user", 0, none, true⟩)] (fun s => s) 0 false
      "bob" "pw" "b@x.com" "user" none none).2.2.2.2.2.1 rfl (by rfl)
  · exact (c4_persistence [("bob", ⟨"pw", "b@x.com", "user", 0, none, true⟩)] (fun s => s) 1 false
      "bob" "pw" "b@x.com" "user" none none).2.2.2.2.2.2.1 rfl
      ⟨"pw", "b@x.com", "user", 0, none, true⟩ rfl rfl rfl
  · exact (c4_persistence [("bob", ⟨"pw", "b@x.com", "user", 0, none, true⟩)] (fun s => s) 0 false
      "bob" "pw" "b@x.com" "user" none none).2.2.2.2.2.2.2 rfl (by rfl)

/-- C7: when `create_user` succeeds with the default role `"user"`, an
immediately following `authenticate` with the same credentials succeeds,
returns role `"user"`, and sets the account's `last_login` to an instant no
earlier than its `created_at`. -/
theorem c7_create_then_authenticate (db : Users) (hashFn : String → String)
    (now1 now2 : Nat) (username password email : String)
    (hcreate : (create_user db hashFn now1 true username password email "user").ret
      = .ok (true, "User created successfully"))
    (hle : now1 ≤ now2) :
    (authenticate (create_user db hashFn now1 true username password email "user").users
        hashFn now2 true username password).ret = .ok (true, "Login successful", some "user")
    ∧ ∃ acct,
        getUser (authenticate
            (create_user db hashFn now1 true username password email "user").users
            hashFn now2 true username password).users username = some acct
        ∧ acct.last_login = some now2 ∧ acct.created_at = now1 ∧ acct.created_at ≤ now2 := by
  by_cases h1 : (getUser db username).isSome = true
  · simp [create_user, h1] at hcreate
  · by_cases h2 : validEmail email = true
    · by_cases h3 : validUsername username = true
      · have h1' : (getUser db username).isSome = false := by
          cases hg : (getUser db username).isSome
          · rfl
          · exact absurd hg h1
        have husers : (create_user db hashFn now1 true username password email "user").users
            = db ++ [(username, ⟨hashFn password, email, "user", now1, none, true⟩)] := by
          simp [create_user, h1', h2, h3]
        have hnone : getUser db username = none := by
          cases hg : getUser db username with
          | none => rfl
          | some a => rw [hg] at h1'; simp at h1'
        have hget : getUser
            (db ++ [(username, (⟨hashFn password, email, "user", now1, none, true⟩ : Account))])
            username = some ⟨hashFn password, email, "user", now1, none, true⟩ := by
          rw [getUser_append_right hnone]
          simp [getUser]
        rw [husers]
        constructor
        · simp [authenticate, hget]
        · refine ⟨⟨hashFn password, email, "user", now1, some now2, true⟩, ?_, rfl, rfl, hle⟩
          have hau : (authenticate
              (db ++ [(username, (⟨hashFn password, email, "user", now1, none, true⟩ : Account))])
              hashFn now2 true username password).users
              = setUser
                  (db ++ [(username,
                    (⟨hashFn password, email, "user", now1, none, true⟩ : Account))])
                  username ⟨hashFn password, email, "user", now1, some now2, true⟩ := by
            simp [authenticate, hget]
          rw [hau]
          exact getUser_setUser_self hget
      · simp [create_user, h1, h2, h3] at hcreate
    · simp [create_user, h1, h2] at hcreate

/-- C7 witness: the theorem applied at concrete inputs, discharging each
hypothesis. -/
theorem c7_create_then_authenticate_witness :
    (authenticate (create_user [] (fun s => s) 0 true "alice" "secret1" "alice@x.com" "user").users
        (fun s => s) 1 true "alice" "secret1").ret = .ok (true, "Login successful", some "user")
    ∧ ∃ acct,
        getUser (authenticate
            (create_user [] (fun s => s) 0 true "alice" "secret1" "alice@x.com" "user").users
            (fun s => s) 1 true "alice" "secret1").users "alice" = some acct
        ∧ acct.last_login = some 1 ∧ acct.created_at = 0 ∧ acct.created_at ≤ 1 :=
  c7_create_then_authenticate [] (fun s => s) 0 1 "alice" "secret1" "alice@x.com"
    (by rfl) (by decide)

theorem getUser_singleton_self (k : String) (a : Account) : getUser [(k, a)] k = some a := by
  simp [getUser]

theorem getUser_singleton_ne {k u : String} (h : ¬(k = u)) (a : Account) :
    getUser [(k, a)] u = none := by
  simp [getUser, h]

theorem cdu_on_both_absent (users0 : Users) (hashFn : String → String) (now1 now2 : Nat)
    (hA : getUser users0 "admin" = none) (hU : getUser users0 "user" = none) :
    create_default_users_on users0 hashFn now1 now2 true
      = .ok (users0
          ++ [("admin", ⟨hashFn "admin123", "admin@example.com", "admin", now1, none, true⟩)]
          ++ [("user", ⟨hashFn "user123", "user@example.com", "user", now2, none, true⟩)]) := by
  have hAs : (getUser users0 "admin").isSome = false := by rw [hA]; rfl
  have h2 : getUser (users0
      ++ [("admin", (⟨hashFn "admin123", "admin@example.com", "admin",
        now1, none, true⟩ : Account))]) "user" = none := by
    rw [getUser_append_right hU]
    exact getUser_singleton_ne (by decide) _
  have h2s : (getUser (users0
      ++ [("admin", (⟨hashFn "admin123", "admin@example.com", "admin",
        now1, none, true⟩ : Account))]) "user").isSome = false := by rw [h2]; rfl
  simp [create_default_users_on, create_user, hAs, h2s,
    (by decide : validEmail "admin@example.com" = true),
    (by decide : validUsername "admin" = true),
    (by decide : validEmail "user@example.com" = true),
    (by decide : validUsername "user" = true)]

/-- C8: initialization creates the two well-known default accounts —
`admin`/`admin123` with role `admin` and `user`/`user123` with role `user` —
exactly when those usernames are absent from the loaded store, and never
overwrites an existing account bearing one of those names. -/
theorem c8_default_accounts (loadRes : LoadResult) (hashFn : String → String) (now1 now2 : Nat) :
    (getUser (load_users loadRes) "admin" = none →
      getUser (load_users loadRes) "user" = none →
      ∃ u, create_default_users loadRes hashFn now1 now2 true = .ok u
        ∧ getUser u "admin"
            = some ⟨hashFn "admin123", "admin@example.com", "admin", now1, none, true⟩
        ∧ getUser u "user"
            = some ⟨hashFn "user123", "user@example.com", "user", now2, none, true⟩)
    ∧ (∀ a, getUser (load_users loadRes) "admin" = some a →
        ∀ u, create_default_users loadRes hashFn now1 now2 true = .ok u →
          getUser u "admin" = some a)
    ∧ (∀ a, getUser (load_users loadRes) "user" = some a →
        ∀ u, create_default_users loadRes hashFn now1 now2 true = .ok u →
          getUser u "user" = some a) := by
  refine ⟨?_, ?_, ?_⟩
  · intro hA hU
    refine ⟨_, cdu_on_both_absent (load_users loadRes) hashFn now1 now2 hA hU, ?_, ?_⟩
    · have hXA : getUser (load_users loadRes
          ++ [("admin", (⟨hashFn "admin123", "admin@example.com", "admin",
            now1, none, true⟩ : Account))]) "admin"
          = some ⟨hashFn "admin123", "admin@example.com", "admin", now1, none, true⟩ := by
        rw [getUser_append_right hA]
        exact getUser_singleton_self _ _
      exact getUser_append_left hXA
    · have hXU : getUser (load_users loadRes
          ++ [("admin", (⟨hashFn "admin123", "admin@example.com", "admin",
            now1, none, true⟩ : Account))]) "user" = none := by
        rw [getUser_append_right hU]
        exact getUser_singleton_ne (by decide) _
      rw [getUser_append_right hXU]
      exact getUser_singleton_self _ _
  · intro a hA u hu
    have hAs : (getUser (load_users loadRes) "admin").isSome = true := by rw [hA]; rfl
    by_cases hU : (getUser (load_users loadRes) "user").isSome = true
    · have hres : create_default_users loadRes hashFn now1 now2 true
          = .ok (load_users loadRes) := by
        simp [create_default_users, create_default_users_on, hAs, hU]
      rw [hres] at hu
      cases hu
      exact hA
    · have hUf : (getUser (load_users loadRes) "user").isSome = false := by
        cases hx : (getUser (load_users loadRes) "user").isSome
        · rfl
        · exact absurd hx hU
      have hres : create_default_users loadRes hashFn now1 now2 true
          = .ok (load_users loadRes
              ++ [("user", ⟨hashFn "user123", "user@example.com", "user", now2, none, true⟩)]) := by
        simp [create_default_users, create_default_users_on, create_user, hAs, hUf,
          (by decide : validEmail "user@example.com" = true),
          (by decide : validUsername "user" = true)]
      rw [hres] at hu
      cases hu
      exact getUser_append_left hA
  · intro a hU u hu
    by_cases hAx : (getUser (load_users loadRes) "admin").isSome = true
    · have hUs : (getUser (load_users loadRes) "user").isSome = true := by rw [hU]; rfl
      have hres : create_default_users loadRes hashFn now1 now2 true
          = .ok (load_users loadRes) := by
        simp [create_default_users, create_default_users_on, hAx, hUs]
      rw [hres] at hu
      cases hu
      exact hU
    · have hAf : (getUser (load_users loadRes) "admin").isSome = false := by
        cases hx : (getUser (load_users loadRes) "admin").isSome
        · rfl
        · exact absurd hx hAx
      have hU1 : getUser (load_users loadRes
          ++ [("admin", (⟨hashFn "admin123", "admin@example.com", "admin",
            now1, none, true⟩ : Account))]) "user" = some a := getUser_append_left hU
      have hU1s : (getUser (load_users loadRes
          ++ [("admin", (⟨hashFn "admin123", "admin@example.com", "admin",
            now1, none, true⟩ : Account))]) "user").isSome = true := by rw [hU1]; rfl
      have hres : create_default_users loadRes hashFn now1 now2 true
          = .ok (load_users loadRes
              ++ [("admin", ⟨hashFn "admin123", "admin@example.com", "admin",
                now1, none, true⟩)]) := by
        simp [create_default_users, create_default_users_on, create_user, hAf, hU1s,
          (by decide : validEmail "admin@example.com" = true),
          (by decide : validUsername "admin" = true)]
      rw [hres] at hu
      cases hu
      exact getUser_append_left hU
/-- C8 witness: the theorem applied at concrete inputs, discharging each
hypothesis. -/
theorem c8_default_accounts_witness :
    (∃ u, create_default_users .absent (fun s => s) 0 1 true = .ok u
      ∧ getUser u "admin" = some ⟨"admin123", "admin@example.com", "admin", 0, none, true⟩
      ∧ getUser u "user" = some ⟨"user123", "user@example.com", "user", 1, none, true⟩)
    ∧ getUser [("admin", (⟨"old", "o@x.com", "admin", 5, none, true⟩ : Account)),
        ("user", ⟨"user123", "user@example.com", "user", 1, none, true⟩)] "admin"
      = some ⟨"old", "o@x.com", "admin", 5, none, true⟩ := by
  constructor
  · exact (c8_default_accounts .absent (fun s => s) 0 1).1 rfl rfl
  · exact (c8_default_accounts (.found [("admin", ⟨"old", "o@x.com", "admin", 5, none, true⟩)])
      (fun s => s) 0 1).2.1 ⟨"old", "o@x.com", "admin", 5, none, true⟩ rfl
      [("admin", ⟨"old", "o@x.com", "admin", 5, none, true⟩),
        ("user", ⟨"user123", "user@example.com", "user", 1, none, true⟩)] (by rfl)

/-- C9: `create_user` imposes no constraint on the password — any password,
including the empty string, is accepted whenever the duplicate, email-format
and username-character checks pass — while the 6-character minimum is
enforced by `update_user`. -/
theorem c9_create_ignores_password :
    (∀ (db : Users) (hashFn : String → String) (now : Nat) (username password email : String),
      (getUser db username).isSome = false → validEmail email = true →
      validUsername username = true →
      (create_user db hashFn now true username password email "user").ret
        = .ok (true, "User created successfully"))
    ∧ (∀ (db : Users) (hashFn : String → String) (username pw : String) (user : Account)
        (roleOpt : Option String) (activeOpt : Option Bool),
      getUser db username = some user → pw.length < 6 →
      (update_user db hashFn true username none roleOpt activeOpt (some pw)).ret
        = .ok (false, "Password must be at least 6 characters")) := by
  constructor
  · intro db hashFn now username password email h1 h2 h3
    simp [create_user, h1, h2, h3]
  · intro db hashFn username pw user roleOpt activeOpt hu hl
    simp [update_user, hu, hl]

/-- C9 witness: the theorem applied at concrete inputs (empty password on
create; a 3-character password rejected by update), discharging each
hypothesis. -/
theorem c9_create_ignores_password_witness :
    (create_user [] (fun s => s) 0 true "carol" "" "carol@x.com" "user").ret
      = .ok (true, "User created successfully")
    ∧ (update_user [("carol", ⟨"", "carol@x.com", "user", 0, none, true⟩)] (fun s => s) true
        "carol" none none none (some "abc")).ret
      = .ok (false, "Password must be at least 6 characters") :=
  ⟨c9_create_ignores_password.1 [] (fun s => s) 0 "carol" "" "carol@x.com"
      (by rfl) (by decide) (by decide),
   c9_create_ignores_password.2 [("carol", ⟨"", "carol@x.com", "user", 0, none, true⟩)]
      (fun s => s) "carol" "abc" ⟨"", "carol@x.com", "user", 0, none, true⟩ none none
      (by rfl) (by decide)⟩

/-- C10: `update_user` is not atomic on the in-memory store: when called on
an existing user with a valid (or absent) email and a too-short new
password, it returns the password error and writes nothing to disk, yet the
email, role and active values passed in the same call have already been
applied to the in-memory account (its password is unchanged). -/
theorem c10_update_short_password_partial (db : Users) (hashFn : String → String)
    (saveOk : Bool) (username : String) (acct : Account)
    (h : getUser db username = some acct)
    (emailOpt : Option String) (hEmail : ∀ e, emailOpt = some e → validEmail e = true)
    (roleOpt : Option String) (activeOpt : Option Bool) (pw : String)
    (hpw : pw.length < 6) :
    (update_user db hashFn saveOk username emailOpt roleOpt activeOpt (some pw)).ret
      = .ok (false, "Password must be at least 6 characters")
    ∧ (update_user db hashFn saveOk username emailOpt roleOpt activeOpt (some pw)).written
      = none
    ∧ getUser (update_user db hashFn saveOk username emailOpt roleOpt activeOpt (some pw)).users
        username
      = some ⟨acct.password,
          (match emailOpt with | some e => e | none => acct.email),
          (match roleOpt with | some r => r | none => acct.role),
          acct.created_at, acct.last_login,
          (match activeOpt with | some b => b | none => acct.active)⟩ := by
  cases emailOpt with
  | none =>
    cases roleOpt with
    | none =>
      cases activeOpt with
      | none =>
        exact ⟨by simp [update_user, h, hpw], by simp [update_user, h, hpw],
          by simp [update_user, h, hpw]; exact getUser_setUser_self h⟩
      | some b =>
        exact ⟨by simp [update_user, h, hpw], by simp [update_user, h, hpw],
          by simp [update_user, h, hpw]; exact getUser_setUser_self h⟩
    | some r =>
      cases activeOpt with
      | none =>
        exact ⟨by simp [update_user, h, hpw], by simp [update_user, h, hpw],
          by simp [update_user, h, hpw]; exact getUser_setUser_self h⟩
      | some b =>
        exact ⟨by simp [update_user, h, hpw], by simp [update_user, h, hpw],
          by simp [update_user, h, hpw]; exact getUser_setUser_self h⟩
  | some e =>
    have he : validEmail e = true := hEmail e rfl
    cases roleOpt with
    | none =>
      cases activeOpt with
      | none =>
        exact ⟨by simp [update_user, h, he, hpw], by simp [update_user, h, he, hpw],
          by simp [update_user, h, he, hpw]; exact getUser_setUser_self h⟩
      | some b =>
        exact ⟨by simp [update_user, h, he, hpw], by simp [update_user, h, he, hpw],
          by simp [update_user, h, he, hpw]; exact getUser_setUser_self h⟩
    | some r =>
      cases activeOpt with
      | none =>
        exact ⟨by simp [update_user, h, he, hpw], by simp [update_user, h, he, hpw],
          by simp [update_user, h, he, hpw]; exact getUser_setUser_self h⟩
      | some b =>
        exact ⟨by simp [update_user, h, he, hpw], by simp [update_user, h, he, hpw],
          by simp [update_user, h, he, hpw]; exact getUser_setUser_self h⟩

/-- C10 witness: the theorem applied at concrete inputs, discharging each
hypothesis. -/
theorem c10_update_short_password_partial_witness :
    (update_user [("dave", ⟨"h", "d@x.com", "user", 0, none, true⟩)] (fun s => s) true
        "dave" (some "new@x.com") (some "admin") (some false) (some "abc")).ret
      = .ok (false, "Password must be at least 6 characters")
    ∧ (update_user [("dave", ⟨"h", "d@x.com", "user", 0, none, true⟩)] (fun s => s) true
        "dave" (some "new@x.com") (some "admin") (some false) (some "abc")).written
      = none
    ∧ getUser (update_user [("dave", ⟨"h", "d@x.com", "user", 0, none, true⟩)] (fun s => s) true
        "dave" (some "new@x.com") (some "admin") (some false) (some "abc")).users "dave"
      = some ⟨"h", "new@x.com", "admin", 0, none, false⟩ :=
  c10_update_short_password_partial [("dave", ⟨"h", "d@x.com", "user", 0, none, true⟩)]
    (fun s => s) true "dave" ⟨"h", "d@x.com", "user", 0, none, true⟩ (by rfl)
    (some "new@x.com") (by intro e he; cases he; decide)
    (some "admin") (some false) "abc" (by decide)

/- ## Image Producer, Rehost and Overlay — `generate_images` (src/tools.py)

The remote services are oracles collected in an `ImageWorld`: the two
generator APIs take the cleaned prompt and return a URL or nothing (covering
exceptions, empty responses and falsy entries), the ImgBB uploads return
their resulting URL or nothing (covering a missing API key, non-200
responses, unsuccessful JSON and exceptions), and download/decode steps are
success flags.  Local files are a list of paths; timestamps are abstract. -/

/-- `s.split(pat)[0]` for a non-empty separator: the prefix before the first
occurrence of `pat` (the whole string when `pat` does not occur). -/
def takeUntilPat (pat : List Char) : List Char → List Char
  | [] => []
  | c :: rest => if pat.isPrefixOf (c :: rest) then [] else c :: takeUntilPat pat rest

/-- Python `s.split(pat)[0]`. -/
def pySplitHead (s pat : String) : String := ⟨takeUntilPat pat.data s.data⟩

/-- The prompt clean-up shared by both generators (src/tools.py lines
413-414 and 445-446): `prompt.split("CRITICAL:")[0].strip()[:1000]`. -/
def cleanPrompt (prompt : String) : String :=
  pyTake 1000 (pyStrip (pySplitHead prompt "CRITICAL:"))

structure ImageWorld where
  dalleApi : String → Option String      -- client.images.generate: first URL, if any
  replicateApi : String → Option String  -- replicate_client.run: first output, if any
  directDownloadOk : Bool                -- requests.get + file write in upload_image_directly
  imgbbDirect : Option String            -- upload_to_imgbb outcome for the temp file
  overlayOk : Bool                       -- download + decode + draw in add_brand_text
  imgbbBranded : Option String           -- upload_to_imgbb outcome for the branded file
  tempStamp : Nat                        -- timestamp naming the temp download file
  brandStamp : Nat                       -- timestamp naming the branded output file

/-- `generate_image_with_dalle` (src/tools.py lines 407-436): clean the
prompt, call the API; any exception or empty answer yields no URL. -/
def generate_image_with_dalle (prompt : String) (w : ImageWorld) : Option String :=
  w.dalleApi (cleanPrompt prompt)

/-- `generate_image_with_replicate` (src/tools.py lines 439-473): same
clean-up and truncation, secondary hosted generator. -/
def generate_image_with_replicate (prompt : String) (w : ImageWorld) : Option String :=
  w.replicateApi (cleanPrompt prompt)

/-- `images/temp_{timestamp}.jpg` (src/tools.py line 489). -/
def tempPath (ts : Nat) : String := "images/temp_" ++ toString ts ++ ".jpg"

/-- `images/branded_{timestamp}.jpg` (src/tools.py line 344). -/
def brandedPath (ts : Nat) : String := "images/branded_" ++ toString ts ++ ".jpg"

/-- `upload_image_directly` (src/tools.py lines 479-513): download the image
to a transient local file, upload it to ImgBB, then remove the transient
file unconditionally; a failed download yields nothing and touches no file. -/
def upload_image_directly (image_url : String) (w : ImageWorld) (fs : List String) :
    Option String × List String :=
  if w.directDownloadOk then
    let temp := tempPath w.tempStamp
    let fs1 := fs ++ [temp]
    (w.imgbbDirect, fs1.erase temp)
  else (none, fs)

/-- `add_brand_text` (src/tools.py lines 258-352): on success the composited
image is written to `images/branded_{timestamp}.jpg` and its path returned;
a failed download/decode raises, modelled as `none` with no file written. -/
def add_brand_text (image_url brand_text website_text : String) (text_size : Nat)
    (w : ImageWorld) (fs : List String) : Option String × List String :=
  if w.overlayOk then (some (brandedPath w.brandStamp), fs ++ [brandedPath w.brandStamp])
  else (none, fs)

/-- The rehost-and-overlay tail of `generate_images` (src/tools.py lines
559-605) acting on a usable generator URL `cu`: always re-upload to ImgBB;
`final_url` is the ImgBB URL when truthy, else the generator URL; overlay
only when both `brand_text` and the ImgBB URL are truthy, falling back to
`final_url` when the overlay or its upload fails.  Returns the appended
image URLs and the file-system state. -/
def publishImage (cu : String) (brand_text : Option String) (website_text : String)
    (text_size : Nat) (w : ImageWorld) (fs : List String) : List String × List String :=
  let dres := upload_image_directly cu w fs
  let imgbb_url := dres.1
  let fs2 := dres.2
  let final_url :=
    match imgbb_url with
    | some iu => if iu = "" then cu else iu
    | none => cu
  if pyTruthy brand_text && pyTruthy imgbb_url then
    let ores := add_brand_text final_url (brand_text.getD "") website_text text_size w fs2
    match ores.1 with
    | some _localFile =>
      if pyTruthy w.imgbbBranded then ([w.imgbbBranded.getD ""], ores.2)
      else ([final_url], ores.2)
    | none => ([final_url], ores.2)
  else
    if !(final_url = "") then ([final_url], fs2) else ([cu], fs2)

structure GenImagesResult where
  image_urls : List String
  files : List String
  sentPrompts : List String      -- prompts handed to the generator calls, in order
  secondaryAttempted : Bool      -- whether generate_image_with_replicate was called
deriving Repr

/-- `generate_images` (src/tools.py lines 520-620): only the FIRST prompt is
processed; DALL-E is tried first and Replicate exactly when its result is
falsy; when both are falsy the result carries no URL, otherwise the tail
(`publishImage`) appends exactly one URL. -/
def generate_images (prompts : Option (List String)) (brand_text : Option String)
    (website_text : String) (text_size : Nat) (w : ImageWorld) (fs : List String) :
    GenImagesResult :=
  match prompts with
  | none => ⟨[], fs, [], false⟩
  | some [] => ⟨[], fs, [], false⟩
  | some (prompt :: _) =>
    let dalleUrl := generate_image_with_dalle prompt w
    if pyTruthy dalleUrl then
      match dalleUrl with
      | some cu =>
        let res := publishImage cu brand_text website_text text_size w fs
        ⟨res.1, res.2, [prompt], false⟩
      | none => ⟨[], fs, [prompt], false⟩   -- unreachable: none is falsy
    else
      let replUrl := generate_image_with_replicate prompt w
      if pyTruthy replUrl then
        match replUrl with
        | some cu =>
          let res := publishImage cu brand_text website_text text_size w fs
          ⟨res.1, res.2, [prompt, prompt], true⟩
        | none => ⟨[], fs, [prompt, prompt], true⟩   -- unreachable: none is falsy
      else ⟨[], fs, [prompt, prompt], true⟩

/- ### File and provider lemmas -/

theorem tempPath_ne_brandedPath (a b : Nat) : tempPath a ≠ brandedPath b := by
  intro h
  have hd := congrArg String.data h
  rw [tempPath, brandedPath, String.data_append, String.data_append, String.data_append,
    String.data_append] at hd
  have e1 : "images/temp_".data = "images/t".data ++ "emp_".data := by decide
  have e2 : "images/branded_".data = "images/b".data ++ "randed_".data := by decide
  rw [e1, e2] at hd
  have hd' : "images/t".data ++ ("emp_".data ++ (toString a).data ++ ".jpg".data)
      = "images/b".data ++ ("randed_".data ++ (toString b).data ++ ".jpg".data) := by
    simpa [List.append_assoc] using hd
  exact absurd (List.append_inj hd' (by decide)).1 (by decide)

theorem erase_append_singleton {fs : List String} {t : String} (h : t ∉ fs) :
    (fs ++ [t]).erase t = fs := by
  rw [List.erase_append_right _ h]
  simp

theorem upload_image_directly_files (cu : String) (w : ImageWorld) (fs : List String)
    (htemp : tempPath w.tempStamp ∉ fs) :
    (upload_image_directly cu w fs).2 = fs := by
  unfold upload_image_directly
  cases hdl : w.directDownloadOk
  · simp
  · simp [erase_append_singleton htemp]

theorem publishImage_singleton (cu : String) (brand : Option String) (web : String)
    (size : Nat) (w : ImageWorld) (fs : List String) :
    ∃ x, (publishImage cu brand web size w fs).1 = [x] := by
  simp only [publishImage]
  split
  · split
    · split
      · exact ⟨_, rfl⟩
      · exact ⟨_, rfl⟩
    · exact ⟨_, rfl⟩
  · split
    · exact ⟨_, rfl⟩
    · exact ⟨_, rfl⟩

theorem publishImage_no_imgbb (cu : String) (brand : Option String) (web : String)
    (size : Nat) (w : ImageWorld) (fs : List String)
    (himg : w.imgbbDirect = none) (hcu : ¬(cu = "")) :
    (publishImage cu brand web size w fs).1 = [cu] := by
  simp only [publishImage, upload_image_directly]
  cases hdl : w.directDownloadOk
  · simp [himg, pyTruthy, hcu]
  · simp [himg, pyTruthy, hcu]

theorem publishImage_files (cu : String) (brand : Option String) (web : String)
    (size : Nat) (w : ImageWorld) (fs : List String)
    (htemp : tempPath w.tempStamp ∉ fs) :
    (publishImage cu brand web size w fs).2 = fs
    ∨ (publishImage cu brand web size w fs).2 = fs ++ [brandedPath w.brandStamp] := by
  have h2 := upload_image_directly_files cu w fs htemp
  simp only [publishImage, add_brand_text]
  rw [h2]
  repeat' split
  all_goals first
    | exact Or.inl rfl
    | exact Or.inr rfl
    | simp_all

theorem publishImage_branded_kept (cu : String) (brand : Option String) (web : String)
    (size : Nat) (w : ImageWorld) (fs : List String)
    (htemp : tempPath w.tempStamp ∉ fs)
    (hb : pyTruthy brand = true) (hdl : w.directDownloadOk = true)
    (himg : pyTruthy w.imgbbDirect = true) (hov : w.overlayOk = true) :
    brandedPath w.brandStamp ∈ (publishImage cu brand web size w fs).2 := by
  have h2 := upload_image_directly_files cu w fs htemp
  have h1 : (upload_image_directly cu w fs).1 = w.imgbbDirect := by
    simp [upload_image_directly, hdl]
  simp only [publishImage, add_brand_text, h1, h2, hb, himg, hov, Bool.and_self]
  repeat' split
  all_goals simp_all

/- ### Claims on the image pipeline -/

/-- C2: `generate_images` attempts the secondary (Replicate) generator
exactly when the primary (DALL-E) result is unusable (falsy); it yields no
URL exactly when both generators fail; otherwise it yields exactly one URL
derived from the first successful generator result — equal to it whenever
the ImgBB re-upload yields nothing. -/
theorem c2_provider_fallback (p : String) (rest : List String) (brand : Option String)
    (web : String) (size : Nat) (w : ImageWorld) (fs : List String) :
    ((generate_images (some (p :: rest)) brand web size w fs).secondaryAttempted = true
      ↔ pyTruthy (generate_image_with_dalle p w) = false)
    ∧ ((generate_images (some (p :: rest)) brand web size w fs).image_urls = []
      ↔ (pyTruthy (generate_image_with_dalle p w) = false
        ∧ pyTruthy (generate_image_with_replicate p w) = false))
    ∧ (pyTruthy (generate_image_with_dalle p w) = true → w.imgbbDirect = none →
        (generate_images (some (p :: rest)) brand web size w fs).image_urls
          = [(generate_image_with_dalle p w).getD ""])
    ∧ (pyTruthy (generate_image_with_dalle p w) = false →
        pyTruthy (generate_image_with_replicate p w) = true → w.imgbbDirect = none →
        (generate_images (some (p :: rest)) brand web size w fs).image_urls
          = [(generate_image_with_replicate p w).getD ""]) := by
  cases hd : generate_image_with_dalle p w with
  | some du =>
    by_cases hdu : du = ""
    · subst hdu
      cases hr : generate_image_with_replicate p w with
      | some ru =>
        by_cases hru : ru = ""
        · subst hru
          have hres : generate_images (some (p :: rest)) brand web size w fs
              = ⟨[], fs, [p, p], true⟩ := by
            simp [generate_images, hd, hr, pyTruthy]
          rw [hres]
          refine ⟨by simp [hd, pyTruthy], by simp [hd, hr, pyTruthy], ?_, ?_⟩
          · intro hcon
            simp [pyTruthy] at hcon
          · intro _ hcon
            simp [pyTruthy] at hcon
        · have hres : generate_images (some (p :: rest)) brand web size w fs
              = ⟨(publishImage ru brand web size w fs).1,
                 (publishImage ru brand web size w fs).2, [p, p], true⟩ := by
            simp [generate_images, hd, hr, pyTruthy, hru]
          rw [hres]
          obtain ⟨x, hx⟩ := publishImage_singleton ru brand web size w fs
          refine ⟨by simp [hd, pyTruthy], by simp [hd, hr, pyTruthy, hru, hx], ?_, ?_⟩
          · intro hcon
            simp [pyTruthy] at hcon
          · intro _ _ himg
            show (publishImage ru brand web size w fs).1 = _
            rw [publishImage_no_imgbb ru brand web size w fs himg hru]
            simp
      | none =>
        have hres : generate_images (some (p :: rest)) brand web size w fs
            = ⟨[], fs, [p, p], true⟩ := by
          simp [generate_images, hd, hr, pyTruthy]
        rw [hres]
        refine ⟨by simp [hd, pyTruthy], by simp [hd, hr, pyTruthy], ?_, ?_⟩
        · intro hcon
          simp [pyTruthy] at hcon
        · intro _ hcon
          simp [pyTruthy] at hcon
    · have hres : generate_images (some (p :: rest)) brand web size w fs
          = ⟨(publishImage du brand web size w fs).1,
             (publishImage du brand web size w fs).2, [p], false⟩ := by
        simp [generate_images, hd, pyTruthy, hdu]
      rw [hres]
      obtain ⟨x, hx⟩ := publishImage_singleton du brand web size w fs
      refine ⟨by simp [hd, pyTruthy, hdu], by simp [hd, pyTruthy, hdu, hx], ?_, ?_⟩
      · intro _ himg
        show (publishImage du brand web size w fs).1 = _
        rw [publishImage_no_imgbb du brand web size w fs himg hdu]
        simp
      · intro hcon _ _
        simp [pyTruthy, hdu] at hcon
  | none =>
    cases hr : generate_image_with_replicate p w with
    | some ru =>
      by_cases hru : ru = ""
      · subst hru
        have hres : generate_images (some (p :: rest)) brand web size w fs
            = ⟨[], fs, [p, p], true⟩ := by
          simp [generate_images, hd, hr, pyTruthy]
        rw [hres]
        refine ⟨by simp [hd, pyTruthy], by simp [hd, hr, pyTruthy], ?_, ?_⟩
        · intro hcon
          simp [pyTruthy] at hcon
        · intro _ hcon
          simp [pyTruthy] at hcon
      · have hres : generate_images (some (p :: rest)) brand web size w fs
            = ⟨(publishImage ru brand web size w fs).1,
               (publishImage ru brand web size w fs).2, [p, p], true⟩ := by
          simp [generate_images, hd, hr, pyTruthy, hru]
        rw [hres]
        obtain ⟨x, hx⟩ := publishImage_singleton ru brand web size w fs
        refine ⟨by simp [hd, pyTruthy], by simp [hd, hr, pyTruthy, hru, hx], ?_, ?_⟩
        · intro hcon
          simp [pyTruthy] at hcon
        · intro _ _ himg
          show (publishImage ru brand web size w fs).1 = _
          rw [publishImage_no_imgbb ru brand web size w fs himg hru]
          simp
    | none =>
      have hres : generate_images (some (p :: rest)) brand web size w fs
          = ⟨[], fs, [p, p], true⟩ := by
        simp [generate_images, hd, hr, pyTruthy]
      rw [hres]
      refine ⟨by simp [hd, pyTruthy], by simp [hd, hr, pyTruthy], ?_, ?_⟩
      · intro hcon
        simp [pyTruthy] at hcon
      · intro _ hcon
        simp [pyTruthy] at hcon

/-- C2 witness: the theorem applied at concrete worlds (primary succeeding;
primary failing with secondary succeeding), discharging each hypothesis. -/
theorem c2_provider_fallback_witness :
    (generate_images (some ["x"]) none "" 80
        ⟨fun _ => some "http://d", fun _ => none, false, none, false, none, 1, 2⟩ []).image_urls
      = ["http://d"]
    ∧ (generate_images (some ["x"]) none "" 80
        ⟨fun _ => none, fun _ => some "http://r", false, none, false, none, 1, 2⟩ []).image_urls
      = ["http://r"]
    ∧ (generate_images (some ["x"]) none "" 80
        ⟨fun _ => none, fun _ => some "http://r", false, none, false, none, 1, 2⟩
        []).secondaryAttempted = true
    ∧ ¬((generate_images (some ["x"]) none "" 80
        ⟨fun _ => some "http://d", fun _ => none, false, none, false, none, 1, 2⟩
        []).secondaryAttempted = true) := by
  refine ⟨?_, ?_, ?_, ?_⟩
  · exact (c2_provider_fallback "x" [] none "" 80
      ⟨fun _ => some "http://d", fun _ => none, false, none, false, none, 1, 2⟩ []).2.2.1
      (by rfl) rfl
  · exact (c2_provider_fallback "x" [] none "" 80
      ⟨fun _ => none, fun _ => some "http://r", false, none, false, none, 1, 2⟩ []).2.2.2
      (by rfl) (by rfl) rfl
  · exact (c2_provider_fallback "x" [] none "" 80
      ⟨fun _ => none, fun _ => some "http://r", false, none, false, none, 1, 2⟩ []).1.mpr
      (by rfl)
  · intro hL
    exact absurd ((c2_provider_fallback "x" [] none "" 80
      ⟨fun _ => some "http://d", fun _ => none, false, none, false, none, 1, 2⟩ []).1.mp hL)
      (by decide)

/-- C5 (counterexample): a successful branded run leaves the overlay output
file `images/branded_2.jpg` on disk — the rehost step's transient download
file is gone, but the brand-overlay local file is never deleted. -/
theorem c5_counterexample :
    (generate_images (some ["a product photo"]) (some "Experts Group FZE") "" 80
        ⟨fun _ => some "http://gen/img", fun _ => none, true, some "http://i.ibb.co/c.jpg",
          true, some "http://i.ibb.co/b.jpg", 1, 2⟩ []).files
      = ["images/branded_2.jpg"] := by
  rfl

/-- C5 (amended): the rehost step's transient download file never remains on
disk, whatever the upload outcome; the brand-overlay step's local output
file, however, is NOT cleaned up: whenever the overlay runs and succeeds its
output file remains on disk regardless of the branded upload's outcome. -/
theorem c5_temp_cleanup (prompts : Option (List String)) (brand : Option String)
    (web : String) (size : Nat) (w : ImageWorld) (fs : List String)
    (htemp : tempPath w.tempStamp ∉ fs) :
    (tempPath w.tempStamp ∉ (generate_images prompts brand web size w fs).files)
    ∧ (∀ p rest, prompts = some (p :: rest) →
        (pyTruthy (generate_image_with_dalle p w) = true
          ∨ pyTruthy (generate_image_with_replicate p w) = true) →
        pyTruthy brand = true → w.directDownloadOk = true →
        pyTruthy w.imgbbDirect = true → w.overlayOk = true →
        brandedPath w.brandStamp ∈ (generate_images prompts brand web size w fs).files) := by
  constructor
  · cases hp : prompts with
    | none => simpa [generate_images] using htemp
    | some l =>
      cases l with
      | nil => simpa [generate_images] using htemp
      | cons p rest =>
        have hpub : ∀ cu, tempPath w.tempStamp ∉ (publishImage cu brand web size w fs).2 := by
          intro cu
          rcases publishImage_files cu brand web size w fs htemp with he | he
          · rw [he]; exact htemp
          · rw [he]
            intro hmem
            rcases List.mem_append.mp hmem with hmem | hmem
            · exact htemp hmem
            · rcases List.mem_singleton.mp hmem with hmem
              exact tempPath_ne_brandedPath w.tempStamp w.brandStamp hmem
        simp only [generate_images]
        by_cases hd : pyTruthy (generate_image_with_dalle p w) = true
        · rw [if_pos hd]
          cases hdm : generate_image_with_dalle p w with
          | none => simpa using htemp
          | some du => exact hpub du
        · rw [if_neg hd]
          by_cases hr : pyTruthy (generate_image_with_replicate p w) = true
          · rw [if_pos hr]
            cases hrm : generate_image_with_replicate p w with
            | none => simpa using htemp
            | some ru => exact hpub ru
          · rw [if_neg hr]
            simpa using htemp
  · intro p rest hp hgen hb hdl himg hov
    subst hp
    simp only [generate_images]
    by_cases hd : pyTruthy (generate_image_with_dalle p w) = true
    · rw [if_pos hd]
      cases hdm : generate_image_with_dalle p w with
      | none => rw [hdm] at hd; simp [pyTruthy] at hd
      | some du =>
        exact publishImage_branded_kept du brand web size w fs htemp hb hdl himg hov
    · rw [if_neg hd]
      have hr : pyTruthy (generate_image_with_replicate p w) = true := by
        rcases hgen with hgen | hgen
        · exact absurd hgen hd
        · exact hgen
      rw [if_pos hr]
      cases hrm : generate_image_with_replicate p w with
      | none => rw [hrm] at hr; simp [pyTruthy] at hr
      | some ru =>
        exact publishImage_branded_kept ru brand web size w fs htemp hb hdl himg hov

/-- C5 witness: the amended theorem applied at a concrete world, discharging
each hypothesis. -/
theorem c5_temp_cleanup_witness :
    (tempPath 1 ∉ (generate_images (some ["a product photo"]) (some "Experts Group FZE") "" 80
        ⟨fun _ => some "http://gen/img", fun _ => none, true, some "http://i.ibb.co/c.jpg",
          true, some "http://i.ibb.co/b.jpg", 1, 2⟩ []).files)
    ∧ brandedPath 2 ∈ (generate_images (some ["a product photo"]) (some "Experts Group FZE") "" 80
        ⟨fun _ => some "http://gen/img", fun _ => none, true, some "http://i.ibb.co/c.jpg",
          true, some "http://i.ibb.co/b.jpg", 1, 2⟩ []).files := by
  have h := c5_temp_cleanup (some ["a product photo"]) (some "Experts Group FZE") "" 80
    ⟨fun _ => some "http://gen/img", fun _ => none, true, some "http://i.ibb.co/c.jpg",
      true, some "http://i.ibb.co/b.jpg", 1, 2⟩ [] (by simp)
  exact ⟨h.1, h.2 "a product photo" [] rfl (Or.inl (by rfl)) (by rfl) rfl (by rfl) rfl⟩

/-- C6: only the first synthesized prompt is ever handed to the generator
calls (once, or twice when the secondary is attempted — never a second
prompt), and a run yields at most one image URL. -/
theorem c6_single_prompt_single_image (prompts : Option (List String)) (brand : Option String)
    (web : String) (size : Nat) (w : ImageWorld) (fs : List String) :
    (∀ p rest, prompts = some (p :: rest) →
      (generate_images prompts brand web size w fs).sentPrompts = [p]
      ∨ (generate_images prompts brand web size w fs).sentPrompts = [p, p])
    ∧ ((prompts = none ∨ prompts = some []) →
      (generate_images prompts brand web size w fs).sentPrompts = [])
    ∧ (generate_images prompts brand web size w fs).image_urls.length ≤ 1 := by
  refine ⟨?_, ?_, ?_⟩
  · intro p rest hp
    subst hp
    simp only [generate_images]
    by_cases hd : pyTruthy (generate_image_with_dalle p w) = true
    · rw [if_pos hd]
      left
      cases hdm : generate_image_with_dalle p w <;> rfl
    · rw [if_neg hd]
      right
      by_cases hr : pyTruthy (generate_image_with_replicate p w) = true
      · rw [if_pos hr]
        cases hrm : generate_image_with_replicate p w <;> rfl
      · rw [if_neg hr]
  · intro hp
    rcases hp with hp | hp <;> subst hp <;> rfl
  · cases hp : prompts with
    | none => simp [generate_images]
    | some l =>
      cases l with
      | nil => simp [generate_images]
      | cons p rest =>
        simp only [generate_images]
        by_cases hd : pyTruthy (generate_image_with_dalle p w) = true
        · rw [if_pos hd]
          cases hdm : generate_image_with_dalle p w with
          | none => simp
          | some du =>
            obtain ⟨x, hx⟩ := publishImage_singleton du brand web size w fs
            simp [hx]
        · rw [if_neg hd]
          by_cases hr : pyTruthy (generate_image_with_replicate p w) = true
          · rw [if_pos hr]
            cases hrm : generate_image_with_replicate p w with
            | none => simp
            | some ru =>
              obtain ⟨x, hx⟩ := publishImage_singleton ru brand web size w fs
              simp [hx]
          · rw [if_neg hr]
            simp

/-- C6 witness: the theorem applied at a concrete input, discharging each
hypothesis: three prompts in, only the first is sent, one URL out. -/
theorem c6_single_prompt_single_image_witness :
    ((generate_images (some ["first", "second", "third"]) none "" 80
        ⟨fun _ => some "http://d", fun _ => none, false, none, false, none, 1, 2⟩ []).sentPrompts
      = ["first"]
      ∨ (generate_images (some ["first", "second", "third"]) none "" 80
        ⟨fun _ => some "http://d", fun _ => none, false, none, false, none, 1, 2⟩ []).sentPrompts
      = ["first", "first"])
    ∧ (generate_images (some ["first", "second", "third"]) none "" 80
        ⟨fun _ => some "http://d", fun _ => none, false, none, false, none, 1, 2⟩
        []).image_urls.length ≤ 1 := by
  have h := c6_single_prompt_single_image (some ["first", "second", "third"]) none "" 80
    ⟨fun _ => some "http://d", fun _ => none, false, none, false, none, 1, 2⟩ []
  exact ⟨h.1 "first" ["second", "third"] rfl, h.2.2⟩

/- ## Prompt Synthesizer — `generate_image_prompts` (src/tools.py lines 93-182)

The optional remote call that crafts a contextual prompt from a post's title
and caption is an oracle returning the model's text or a failure. -/

inductive SmartResult where
  | ok (content : String)   -- the chat completion's returned text
  | failure                 -- any exception from the call

/-- The constraint block appended on the template path (src/tools.py lines
123-127): everything after the substituted `custom_prompt` in the f-string. -/
def templateSuffix : String :=
  "\nCRITICAL: Absolutely NO text, NO words, NO letters, NO signs, NO labels, NO typography anywhere in the image.\nDo not generate: store signs, product labels, brand names, written text, numbers, letters, Arabic text, English text, or any readable characters.\nClean product photography without any visible text or writing.\nAspect ratio: 1:1 (square)."

/-- The constraint block appended on the remote-model path (src/tools.py
lines 158-162): same first lines, but the last line carries an extra
`Professional commercial photography.` sentence. -/
def aiSuffix : String :=
  "\nCRITICAL: Absolutely NO text, NO words, NO letters, NO signs, NO labels, NO typography anywhere in the image.\nDo not generate: store signs, product labels, brand names, written text, numbers, letters, Arabic text, English text, or any readable characters.\nClean product photography without any visible text or writing.\nAspect ratio: 1:1 (square). Professional commercial photography."

/-- The fixed tail of the deterministic fallback prompt (src/tools.py lines
174-179), before `.strip()`: note its shorter constraint block. -/
def fallbackTail : String :=
  "\nStyle: high-quality product photography, studio lighting\nMood: professional, commercial, aspirational\nCRITICAL: Absolutely NO text, NO words, NO letters, NO signs, NO labels anywhere in the image.\nClean photography without any visible text or writing.\nAspect ratio: 1:1 (square).\n                "

/-- The raw fallback f-string (src/tools.py lines 170-179); the code applies
`.strip()` to it. -/
def fallbackRaw (title caption : String) : String :=
  "\nProfessional commercial photograph.\nSubject: " ++ title ++ "\nContext: "
    ++ pyTake 100 caption ++ fallbackTail

/-- The template path (src/tools.py lines 114-128): substitute `[TITLE]` and
the 100-character-truncated caption for `[CAPTION]`, then append the
constraint block. -/
def templatePathPrompt (t : String) (p : Post) : String :=
  pyReplace (pyReplace t "[TITLE]" p.title) "[CAPTION]" (pyTake 100 p.caption)
    ++ templateSuffix

/-- `generate_image_prompts` (src/tools.py lines 93-182): one prompt per post
with a truthy title (posts without one are skipped, preserving order — the
Python loop's append/continue is a `filterMap`).  A truthy
`custom_prompt_template` selects the template path; otherwise the remote
model is asked (the oracle receives the post's title and caption, from which
the code builds its request) and on failure the deterministic fallback is
used, stripped. -/
def generate_image_prompts (posts : Option (List Post)) (custom_prompt_template : Option String)
    (oracle : String → String → SmartResult) : List String :=
  match posts with
  | none => []
  | some ps =>
    ps.filterMap (fun p =>
      if p.title = "" then none
      else if pyTruthy custom_prompt_template then
        some (templatePathPrompt (custom_prompt_template.getD "") p)
      else
        match oracle p.title p.caption with
        | .ok content => some (pyStrip content ++ aiSuffix)
        | .failure => some (pyStrip (fallbackRaw p.title p.caption)))

/-- C3 (counterexample): the three paths do not share one fixed suffix — the
template-path prompt ends with `templateSuffix` but not with the
remote-model path's `aiSuffix`, and vice versa — and the substituted title
is not always contained in the produced prompt: with template
`x[[TITLE]TION]y [CAPTION]` (which contains both placeholders) and title
`CAP`, the first substitution manufactures a `[CAPTION]` occurrence that the
second substitution consumes, so `CAP` does not occur in the output. -/
theorem c3_counterexample :
    (templateSuffix.data <:+
      ((generate_image_prompts (some [⟨"T", "c", ""⟩]) (some "[TITLE] shot of [CAPTION]")
        (fun _ _ => .failure)).headD "").data)
    ∧ ¬(aiSuffix.data <:+
      ((generate_image_prompts (some [⟨"T", "c", ""⟩]) (some "[TITLE] shot of [CAPTION]")
        (fun _ _ => .failure)).headD "").data)
    ∧ (aiSuffix.data <:+
      ((generate_image_prompts (some [⟨"T", "c", ""⟩]) none
        (fun _ _ => .ok "studio shot")).headD "").data)
    ∧ ¬(templateSuffix.data <:+
      ((generate_image_prompts (some [⟨"T", "c", ""⟩]) none
        (fun _ _ => .ok "studio shot")).headD "").data)
    ∧ ("[TITLE]".data <:+: "x[[TITLE]TION]y [CAPTION]".data)
    ∧ ("[CAPTION]".data <:+: "x[[TITLE]TION]y [CAPTION]".data)
    ∧ ¬("CAP".data <:+:
      ((generate_image_prompts (some [⟨"CAP", "zzz", ""⟩]) (some "x[[TITLE]TION]y [CAPTION]")
        (fun _ _ => .failure)).headD "").data) := by
  refine ⟨?_, ?_, ?_, ?_, ?_, ?_, ?_⟩ <;> decide

/- ### Infix lemmas for the Python replace and strip primitives -/

theorem infix_append_right {u x y : List Char} (h : u <:+: y) : u <:+: x ++ y :=
  h.trans (List.suffix_append x y).isInfix

theorem infix_append_left {u x y : List Char} (h : u <:+: x) : u <:+: x ++ y :=
  h.trans (List.prefix_append x y).isInfix

/-- Each replaced occurrence introduces the replacement as an infix. -/
theorem replaceAllGo_rep_infix {pat rep : List Char} (hpat : pat ≠ []) :
    ∀ (fuel : Nat) (l : List Char), l.length ≤ fuel → pat <:+: l →
      rep <:+: replaceAllGo pat rep fuel l := by
  intro fuel
  induction fuel with
  | zero =>
    intro l hl h
    have hnil : l = [] := List.eq_nil_of_length_eq_zero (Nat.le_zero.mp hl)
    subst hnil
    exact absurd (List.infix_nil.mp h) hpat
  | succ fuel ih =>
    intro l hl h
    cases l with
    | nil => exact absurd (List.infix_nil.mp h) hpat
    | cons c rest =>
      simp only [replaceAllGo]
      by_cases hpre : pat.isPrefixOf (c :: rest) = true
      · rw [if_pos hpre]
        exact (List.prefix_append rep _).isInfix
      · rw [if_neg hpre]
        have h2 : pat <:+: rest := by
          rcases List.infix_cons_iff.mp h with hp | hp
          · exact absurd (List.isPrefixOf_iff_prefix.mpr hp) hpre
          · exact hp
        have hlen : rest.length ≤ fuel := by
          simp [List.length_cons] at hl
          omega
        exact List.infix_cons (ih rest hlen h2)

/-- A prefix whose characters all differ from the pattern's first character
is untouched by the replacement. -/
theorem replaceAllGo_prefix_preserved {b : Char} {patTail rep : List Char} :
    ∀ (fuel : Nat) (s l : List Char), (∀ c ∈ s, c ≠ b) → s <+: l →
      s <+: replaceAllGo (b :: patTail) rep fuel l := by
  intro fuel
  induction fuel with
  | zero =>
    intro s l hfree hp
    cases l with
    | nil => simpa [replaceAllGo] using hp
    | cons c rest => simpa [replaceAllGo] using hp
  | succ fuel ih =>
    intro s l hfree hp
    cases l with
    | nil =>
      have hnil : s = [] := List.prefix_nil.mp hp
      subst hnil
      exact List.nil_prefix
    | cons c rest =>
      cases s with
      | nil => exact List.nil_prefix
      | cons x s' =>
        obtain ⟨hxc, hs'⟩ := List.cons_prefix_cons.mp hp
        have hpre : ¬((b :: patTail).isPrefixOf (c :: rest) = true) := by
          intro hcontra
          have hbc := (List.cons_prefix_cons.mp (List.isPrefixOf_iff_prefix.mp hcontra)).1
          have hxb : x ≠ b := hfree x (List.mem_cons_self x s')
          rw [hxc] at hxb
          exact hxb hbc.symm
        simp only [replaceAllGo]
        rw [if_neg hpre]
        exact List.cons_prefix_cons.mpr
          ⟨hxc, ih s' rest (fun ch hm => hfree ch (List.mem_cons_of_mem x hm)) hs'⟩

/-- A non-empty, bracket-free infix of the bracketed pattern lies in its
middle. -/
theorem infix_bracket_pat {mid s : List Char} (hs : s ≠ [])
    (hfree : ∀ c ∈ s, c ≠ '[' ∧ c ≠ ']') :
    s <:+: '[' :: (mid ++ [']']) → s <:+: mid := by
  intro h
  rcases List.infix_cons_iff.mp h with hpre | hinf
  · cases s with
    | nil => exact absurd rfl hs
    | cons x s' =>
      have hx := (List.cons_prefix_cons.mp hpre).1
      exact absurd hx (hfree x (List.mem_cons_self x s')).1
  · obtain ⟨a, t, hat⟩ := hinf
    rcases List.eq_nil_or_concat s with rfl | ⟨s₀, y, hs0⟩
    · exact absurd rfl hs
    · rw [List.concat_eq_append] at hs0
      subst hs0
      have hy : y ∈ s₀ ++ [y] := by simp
      rcases List.eq_nil_or_concat t with rfl | ⟨t', cl, ht0⟩
      · have h2 : (a ++ s₀) ++ [y] = mid ++ [']'] := by
          simpa [List.append_assoc] using hat
        obtain ⟨-, h4⟩ := List.append_inj' h2 rfl
        have hyr : y = ']' := by simpa using h4
        subst hyr
        exact absurd rfl (hfree _ hy).2
      · rw [List.concat_eq_append] at ht0
        subst ht0
        have h2 : (a ++ (s₀ ++ [y]) ++ t') ++ [cl] = mid ++ [']'] := by
          simpa [List.append_assoc] using hat
        obtain ⟨h3, -⟩ := List.append_inj' h2 rfl
        exact ⟨a, t', h3⟩

/-- A non-empty, bracket-free infix of `pat ++ l₂` that does not occur in the
pattern's middle occurs in `l₂`. -/
theorem infix_append_pat_elim {mid l₂ s : List Char} (hs : s ≠ [])
    (hfree : ∀ c ∈ s, c ≠ '[' ∧ c ≠ ']') (hmid : ¬s <:+: mid) :
    s <:+: ('[' :: (mid ++ [']'])) ++ l₂ → s <:+: l₂ := by
  intro h
  obtain ⟨u, t, hut⟩ := h
  have hut' : ('[' :: (mid ++ [']'])) ++ l₂ = u ++ (s ++ t) := by
    simpa [List.append_assoc] using hut.symm
  rcases List.append_eq_append_iff.mp hut' with ⟨e, he1, he2⟩ | ⟨e, he1, he2⟩
  · -- the occurrence context extends past the pattern: u = pat ++ e
    exact ⟨e, t, by simp [List.append_assoc, ← he2]⟩
  · -- the pattern extends past the context: pat = u ++ e, s ++ t = e ++ l₂
    rcases List.append_eq_append_iff.mp he2 with ⟨f, hf1, hf2⟩ | ⟨f, hf1, hf2⟩
    · -- e = s ++ f: the occurrence is inside the pattern
      have hsp : s <:+: '[' :: (mid ++ [']']) := by
        refine ⟨u, f, ?_⟩
        rw [he1, hf1]
        simp [List.append_assoc]
      exact absurd (infix_bracket_pat hs hfree hsp) hmid
    · -- s = e ++ f with l₂ = f ++ t
      rcases List.eq_nil_or_concat e with rfl | ⟨e₁, y, he0⟩
      · refine ⟨[], t, ?_⟩
        simp at hf1
        simp [hf1, hf2]
      · rw [List.concat_eq_append] at he0
        subst he0
        have hpl : ('[' :: (mid ++ [']'])).getLast? = some ']' := by
          rw [show ('[' :: (mid ++ [']'])) = ('[' :: mid) ++ [']'] from by simp]
          exact List.getLast?_concat _
        have hpl2 : ('[' :: (mid ++ [']'])).getLast? = some y := by
          rw [he1, show u ++ (e₁ ++ [y]) = (u ++ e₁) ++ [y] from by
            simp [List.append_assoc]]
          exact List.getLast?_concat _
        have hy : (']' : Char) = y := by
          rw [hpl] at hpl2
          exact Option.some.inj hpl2
        have hymem : y ∈ s := by rw [hf1]; simp
        exact absurd hy.symm (hfree y hymem).2

/-- A non-empty infix that avoids brackets and does not occur in the
pattern's middle survives the replacement. -/
theorem replaceAllGo_infix_survives {mid rep s : List Char}
    (hs : s ≠ []) (hfree : ∀ c ∈ s, c ≠ '[' ∧ c ≠ ']') (hmid : ¬s <:+: mid) :
    ∀ (fuel : Nat) (l : List Char), l.length ≤ fuel → s <:+: l →
      s <:+: replaceAllGo ('[' :: (mid ++ [']'])) rep fuel l := by
  intro fuel
  induction fuel with
  | zero =>
    intro l hl h
    have hnil : l = [] := List.eq_nil_of_length_eq_zero (Nat.le_zero.mp hl)
    subst hnil
    exact absurd (List.infix_nil.mp h) hs
  | succ fuel ih =>
    intro l hl h
    cases l with
    | nil => exact absurd (List.infix_nil.mp h) hs
    | cons c rest =>
      rcases List.infix_cons_iff.mp h with hpre | hinf
      · exact (replaceAllGo_prefix_preserved (fuel + 1) s (c :: rest)
          (fun ch hm => (hfree ch hm).1) hpre).isInfix
      · simp only [replaceAllGo]
        by_cases hp : ('[' :: (mid ++ [']'])).isPrefixOf (c :: rest) = true
        · rw [if_pos hp]
          obtain ⟨l₂, hl₂⟩ := List.isPrefixOf_iff_prefix.mp hp
          have hdrop : (c :: rest).drop ('[' :: (mid ++ [']'])).length = l₂ := by
            rw [← hl₂]
            exact List.drop_left _ _
          rw [hdrop]
          have hsl : s <:+: l₂ := by
            apply infix_append_pat_elim hs hfree hmid
            rw [hl₂]
            exact h
          have hlen : l₂.length ≤ fuel := by
            have h1 := congrArg List.length hl₂
            simp [List.length_append, List.length_cons] at h1 hl
            omega
          exact infix_append_right (ih l₂ hlen hsl)
        · rw [if_neg hp]
          have hlen : rest.length ≤ fuel := by
            simp [List.length_cons] at hl
            omega
          exact List.infix_cons (ih rest hlen hinf)

/-- String-level: a replaced occurrence puts the replacement into the
result. -/
theorem pyReplace_rep_infix {s pat rep : String} (hpat : ¬(pat.data = []))
    (h : pat.data <:+: s.data) : rep.data <:+: (pyReplace s pat rep).data := by
  have hne : pat.data.isEmpty = false := by
    cases hpd : pat.data with
    | nil => exact absurd hpd hpat
    | cons a l => rfl
  show rep.data <:+: replaceAll pat.data rep.data s.data
  rw [replaceAll, hne]
  simp only [Bool.false_eq_true, if_false]
  exact replaceAllGo_rep_infix hpat s.data.length s.data le_rfl h

/-- String-level: a bracket-free infix not occurring in `CAPTION` survives
the `[CAPTION]` substitution. -/
theorem pyReplace_caption_survives {t rep : String} {s : List Char}
    (hs : s ≠ []) (hfree : ∀ c ∈ s, c ≠ '[' ∧ c ≠ ']')
    (hmid : ¬s <:+: "CAPTION".data) (h : s <:+: t.data) :
    s <:+: (pyReplace t "[CAPTION]" rep).data := by
  show s <:+: replaceAll "[CAPTION]".data rep.data t.data
  rw [replaceAll, show "[CAPTION]".data.isEmpty = false from rfl]
  simp only [Bool.false_eq_true, if_false]
  exact @replaceAllGo_infix_survives "CAPTION".data rep.data s hs hfree hmid
    t.data.length t.data le_rfl h

/-- An infix whose first character fails the predicate survives
`dropWhile`. -/
theorem infix_dropWhile {p : Char → Bool} {u : List Char} {c : Char}
    (hc : u.head? = some c) (hpc : p c = false) :
    ∀ {l : List Char}, u <:+: l → u <:+: l.dropWhile p := by
  intro l
  induction l with
  | nil => intro h; simpa using h
  | cons a rest ih =>
    intro h
    rw [List.dropWhile_cons]
    by_cases hpa : p a = true
    · rw [if_pos hpa]
      rcases List.infix_cons_iff.mp h with hpre | hinf
      · cases u with
        | nil => simp at hc
        | cons x u' =>
          have hxa := (List.cons_prefix_cons.mp hpre).1
          have hxc : x = c := Option.some.inj hc
          rw [← hxa, hxc] at hpa
          exact absurd hpa (by simp [hpc])
      · exact ih hinf
    · rw [if_neg hpa]
      exact h

/-- An infix whose first and last characters are not whitespace survives
`strip()`. -/
theorem infix_stripList {u l : List Char} {c d : Char}
    (hc : u.head? = some c) (hwc : wsChar c = false)
    (hd : u.getLast? = some d) (hwd : wsChar d = false)
    (h : u <:+: l) : u <:+: stripList l := by
  have h1 : u <:+: l.dropWhile wsChar := infix_dropWhile hc hwc h
  have h2 : u.reverse <:+: (l.dropWhile wsChar).reverse := List.reverse_infix.mpr h1
  have hrc : u.reverse.head? = some d := by rw [List.head?_reverse]; exact hd
  have h3 : u.reverse <:+: ((l.dropWhile wsChar).reverse).dropWhile wsChar :=
    infix_dropWhile hrc hwd h2
  have h4 : u <:+: (((l.dropWhile wsChar).reverse).dropWhile wsChar).reverse := by
    rw [← List.reverse_infix, List.reverse_reverse]
    exact h3
  simpa [stripList] using h4

theorem noText_infix_templateSuffix :
    "NO text, NO words, NO letters, NO signs, NO labels".data <:+: templateSuffix.data := by
  decide

theorem square_infix_templateSuffix :
    "Aspect ratio: 1:1 (square).".data <:+: templateSuffix.data := by
  decide

theorem noText_infix_aiSuffix :
    "NO text, NO words, NO letters, NO signs, NO labels".data <:+: aiSuffix.data := by
  decide

theorem square_infix_aiSuffix :
    "Aspect ratio: 1:1 (square).".data <:+: aiSuffix.data := by
  decide

theorem noText_infix_fallbackTail :
    "NO text, NO words, NO letters, NO signs, NO labels".data <:+: fallbackTail.data := by
  decide

theorem square_infix_fallbackTail :
    "Aspect ratio: 1:1 (square).".data <:+: fallbackTail.data := by
  decide

theorem string_data_ne_nil {s : String} (h : ¬(s = "")) : s.data ≠ [] := by
  intro hnil
  apply h
  cases s with
  | mk data =>
    simp only at hnil
    subst hnil
    rfl

/-- C3 (amended): every produced prompt — template, remote-model and
fallback path alike — contains the no-text negative constraint and the
square-aspect-ratio clause; on the template path the produced prompt is the
template with `[TITLE]` and `[CAPTION]` (caption truncated to 100
characters) substituted, followed by the fixed `templateSuffix`; the
substituted title appears in the prompt whenever it cannot interact with the
`[CAPTION]` placeholder (no brackets, not a fragment of `CAPTION`), and the
truncated caption appears whenever a `[CAPTION]` occurrence survives the
title substitution; but the template and remote-model paths append two
different suffixes, so no single fixed suffix ends every prompt. -/
theorem c3_prompt_synthesis (ps : List Post) (tmpl : Option String)
    (oracle : String → String → SmartResult) :
    (∀ q ∈ generate_image_prompts (some ps) tmpl oracle,
      "NO text, NO words, NO letters, NO signs, NO labels".data <:+: q.data
      ∧ "Aspect ratio: 1:1 (square).".data <:+: q.data)
    ∧ (∀ t p, tmpl = some t → ¬(t = "") → p ∈ ps → ¬(p.title = "") →
        templatePathPrompt t p ∈ generate_image_prompts (some ps) tmpl oracle)
    ∧ (∀ (t : String) (p : Post), "[TITLE]".data <:+: t.data → ¬(p.title = "") →
        (∀ c ∈ p.title.data, c ≠ '[' ∧ c ≠ ']') →
        ¬(p.title.data <:+: "CAPTION".data) →
        p.title.data <:+: (templatePathPrompt t p).data)
    ∧ (∀ (t : String) (p : Post),
        "[CAPTION]".data <:+: (pyReplace t "[TITLE]" p.title).data →
        (pyTake 100 p.caption).data <:+: (templatePathPrompt t p).data)
    ∧ templateSuffix ≠ aiSuffix := by
  refine ⟨?_, ?_, ?_, ?_, ?_⟩
  · intro q hq
    simp only [generate_image_prompts] at hq
    obtain ⟨p, hp, hfp⟩ := List.mem_filterMap.mp hq
    by_cases ht : p.title = ""
    · rw [if_pos ht] at hfp
      simp at hfp
    · rw [if_neg ht] at hfp
      by_cases htm : pyTruthy tmpl = true
      · rw [if_pos htm] at hfp
        have hq' : q = templatePathPrompt (tmpl.getD "") p := (Option.some.inj hfp).symm
        subst hq'
        simp only [templatePathPrompt, String.data_append]
        exact ⟨infix_append_right noText_infix_templateSuffix,
          infix_append_right square_infix_templateSuffix⟩
      · rw [if_neg htm] at hfp
        cases horc : oracle p.title p.caption with
        | ok content =>
          rw [horc] at hfp
          have hq' : q = pyStrip content ++ aiSuffix := (Option.some.inj hfp).symm
          subst hq'
          rw [String.data_append]
          exact ⟨infix_append_right noText_infix_aiSuffix,
            infix_append_right square_infix_aiSuffix⟩
        | failure =>
          rw [horc] at hfp
          have hq' : q = pyStrip (fallbackRaw p.title p.caption) :=
            (Option.some.inj hfp).symm
          subst hq'
          have hfb : (fallbackRaw p.title p.caption).data
              = ("\nProfessional commercial photograph.\nSubject: " ++ p.title
                  ++ "\nContext: " ++ pyTake 100 p.caption).data ++ fallbackTail.data := by
            rw [fallbackRaw, String.data_append]
          constructor
          · exact @infix_stripList
              "NO text, NO words, NO letters, NO signs, NO labels".data
              (fallbackRaw p.title p.caption).data 'N' 's' rfl (by decide) rfl (by decide)
              (by rw [hfb]; exact infix_append_right noText_infix_fallbackTail)
          · exact @infix_stripList
              "Aspect ratio: 1:1 (square).".data
              (fallbackRaw p.title p.caption).data 'A' '.' rfl (by decide) rfl (by decide)
              (by rw [hfb]; exact infix_append_right square_infix_fallbackTail)
  · intro t p htm hne hp htitle
    subst htm
    simp only [generate_image_prompts]
    apply List.mem_filterMap.mpr
    refine ⟨p, hp, ?_⟩
    rw [if_neg htitle]
    have htt : pyTruthy (some t) = true := by simp [pyTruthy, hne]
    rw [if_pos htt]
    rfl
  · intro t p hocc htitle hfree hmid
    have htd : p.title.data ≠ [] := string_data_ne_nil htitle
    have h1 : p.title.data <:+: (pyReplace t "[TITLE]" p.title).data :=
      pyReplace_rep_infix (by decide) hocc
    have h2 := @pyReplace_caption_survives (pyReplace t "[TITLE]" p.title)
      (pyTake 100 p.caption) p.title.data htd hfree hmid h1
    simp only [templatePathPrompt, String.data_append]
    exact infix_append_left h2
  · intro t p hocc
    have h1 : (pyTake 100 p.caption).data <:+:
        (pyReplace (pyReplace t "[TITLE]" p.title) "[CAPTION]"
          (pyTake 100 p.caption)).data :=
      pyReplace_rep_infix (by decide) hocc
    simp only [templatePathPrompt, String.data_append]
    exact infix_append_left h1
  · decide

/-- C3 witness: the amended theorem applied at a concrete template, post and
oracle, discharging each hypothesis. -/
theorem c3_prompt_synthesis_witness :
    (templatePathPrompt "[TITLE] product shot of [CAPTION]" ⟨"Dubai Tech", "great caption", ""⟩
      ∈ generate_image_prompts (some [⟨"Dubai Tech", "great caption", ""⟩])
          (some "[TITLE] product shot of [CAPTION]") (fun _ _ => .failure))
    ∧ ("Dubai Tech".data <:+:
        (templatePathPrompt "[TITLE] product shot of [CAPTION]"
          ⟨"Dubai Tech", "great caption", ""⟩).data)
    ∧ ((pyTake 100 "great caption").data <:+:
        (templatePathPrompt "[TITLE] product shot of [CAPTION]"
          ⟨"Dubai Tech", "great caption", ""⟩).data)
    ∧ ("NO text, NO words, NO letters, NO signs, NO labels".data <:+:
        (templatePathPrompt "[TITLE] product shot of [CAPTION]"
          ⟨"Dubai Tech", "great caption", ""⟩).data)
    ∧ templateSuffix ≠ aiSuffix := by
  have h := c3_prompt_synthesis [⟨"Dubai Tech", "great caption", ""⟩]
    (some "[TITLE] product shot of [CAPTION]") (fun _ _ => .failure)
  have hmem := h.2.1 "[TITLE] product shot of [CAPTION]" ⟨"Dubai Tech", "great caption", ""⟩
    rfl (by decide) (by simp) (by decide)
  refine ⟨hmem, ?_, ?_, ?_, h.2.2.2.2⟩
  · exact h.2.2.1 "[TITLE] product shot of [CAPTION]" ⟨"Dubai Tech", "great caption", ""⟩
      (by decide) (by decide) (by decide) (by decide)
  · exact h.2.2.2.1 "[TITLE] product shot of [CAPTION]" ⟨"Dubai Tech", "great caption", ""⟩
      (by decide)
  · exact (h.1 _ hmem).1

end AdvAuto
